import Mathlib

/-!
# Fennec-Engine: shallow embedding and verification

This file embeds the GPU resource-and-command-submission core of the
Fennec engine (Rust) in Lean 4 and proves or refutes the frozen claims
about it.

Modelling conventions:
* Pure Rust functions become Lean functions; `&mut self` methods become
  functions returning the updated value.
* `Result<T, FennecError>` becomes `Except FennecError T`.  A Rust panic
  (`unwrap`, `expect`, arithmetic overflow in debug builds) is a distinct
  outcome, modelled by the `POutcome` type where a claim depends on it.
* Calls into the underlying Vulkan API are modelled as events appended to
  an explicit log (`VkCall`); the device itself is not modelled, and API
  calls whose failure is irrelevant to a claim are modelled as succeeding.
* Machine integers: `u64`/`u32`/`usize` counters and counts are modelled
  as `Nat`.  The only arithmetic performed on them in the embedded code is
  increment of `Cache.prev_index` (overflow unreachable: each increment
  accompanies a `HashMap` insertion, so 2^64 increments exceed memory) and
  the index bookkeeping of `reduce_family_priorities_to_unique`, where the
  release-build wrapping semantics of `usize` is modelled explicitly (see
  the comment there).
* `f32` values (queue priorities) are never inspected by the claims; they
  are abstracted behind an opaque type parameter with a Boolean comparison
  standing for the derived `PartialOrd::le` on `Vec<f32>`.
-/

namespace Fennec

/-! ## `src/error.rs` -/

/-- Model of `FennecError` from `src/error.rs`: a description string plus an optional
boxed cause.  The cause is an arbitrary trait object used only for display;
we record only whether one is present via the factory used. -/
structure FennecError where
  description : String
  deriving Repr, DecidableEq

/-- Model of `FennecError::new` -/
def FennecError.new (description : String) : FennecError :=
  { description := description }

/-- Outcome of a Rust computation that can return normally, return an error,
or panic (`unwrap`/`expect` on `None`/`Err`). -/
inductive POutcome (α : Type u) where
  | ok : α → POutcome α
  | err : FennecError → POutcome α
  | panicked : String → POutcome α
  deriving Repr, DecidableEq

/-! ## `src/cache.rs` -/

/-- Model of `Handle<T>` from `src/cache.rs`: an opaque value type carrying a 64-bit
index (modelled as `Nat`) and a phantom type tag (dropped: it has no runtime
content).  Compared by index only. -/
structure Handle where
  index : Nat
  deriving Repr, DecidableEq

/-- The Rust `Debug` rendering of a `Handle`, used in error messages:
`write!(f, "Handle \x7b\x7b index: \x7b\x7d \x7d\x7d", self.index)`. -/
def Handle.debugFmt (h : Handle) : String :=
  "Handle \x7b index: " ++ toString h.index ++ " \x7d"

/-- Model of `Cache<T>` from `src/cache.rs`: a `HashMap<Handle<T>, T>` (modelled as
its lookup function) together with the `prev_index` counter. -/
structure Cache (T : Type u) where
  data : Handle → Option T
  prev_index : Nat

/-- Model of `Cache::new` -/
def Cache.new {T : Type u} : Cache T :=
  { data := fun _ => none, prev_index := 0 }

/-- Model of `Cache::insert`: bump `prev_index`, build the handle from it, insert the
value under that handle, and return the handle (paired here with the updated
cache, since `&mut self` is explicit state passing). -/
def Cache.insert {T : Type u} (c : Cache T) (value : T) : Handle × Cache T :=
  let prev := c.prev_index + 1
  let handle : Handle := ⟨prev⟩
  (handle,
    { data := fun k => if k = handle then some value else c.data k,
      prev_index := prev })

/-- Model of `Cache::remove`: `HashMap::remove` returns the value previously stored
under the handle, if any, and deletes the entry. -/
def Cache.remove {T : Type u} (c : Cache T) (handle : Handle) :
    Option T × Cache T :=
  (c.data handle,
    { c with data := fun k => if k = handle then none else c.data k })

/-- Model of `Cache::get` -/
def Cache.get {T : Type u} (c : Cache T) (handle : Handle) : Option T :=
  c.data handle

/-- One operation on a `Cache<T>`, for stating properties over arbitrary
interleavings of inserts and removals. -/
inductive CacheOp (T : Type u) where
  | insert (value : T)
  | remove (handle : Handle)

/-- Run a sequence of operations on a cache, collecting the handles issued
by the `insert` calls in order. -/
def Cache.runOps {T : Type u} (c : Cache T) :
    List (CacheOp T) → Cache T × List Handle
  | [] => (c, [])
  | CacheOp.insert v :: rest =>
      let (h, c') := c.insert v
      let (cf, hs) := c'.runOps rest
      (cf, h :: hs)
  | CacheOp.remove h :: rest => (c.remove h).2.runOps rest

/-! ## `src/vm/graphicsengine/queuefamily.rs` — queue kinds and command buffers -/

/-- Model of `QueueKind` from `queuefamily.rs`. -/
inductive QueueKind where
  | present
  | graphics
  | transfer
  | compute
  deriving Repr, DecidableEq

/-- The Rust `Debug` rendering of a `QueueKind` variant. -/
def QueueKind.debugFmt : QueueKind → String
  | .present => "Present"
  | .graphics => "Graphics"
  | .transfer => "Transfer"
  | .compute => "Compute"

/-- The Rust `Debug` rendering of a slice of queue kinds, used by
`verify_kind`'s error message. -/
def debugFmtKinds (kinds : List QueueKind) : String :=
  "[" ++ String.intercalate ", " (kinds.map QueueKind.debugFmt) ++ "]"

/-- A call into the underlying Vulkan API, recorded in an event log.  The
payloads irrelevant to the claims (barrier descriptions, clear colors,
render-pass attachments, ...) are omitted. -/
inductive VkCall where
  | allocateCommandBuffers (count : Nat)
  | freeCommandBuffers (count : Nat)
  | beginCommandBuffer (usedOnce simultaneousUse : Bool)
  | endCommandBuffer
  | cmdPipelineBarrier
  | cmdClearColorImage
  | cmdBeginRenderPass
  | cmdEndRenderPass
  | cmdBindPipeline
  | cmdCopyBufferToImage
  | cmdDraw (vertexCount instanceCount firstVertex firstInstance : Nat)
  | cmdDrawIndexed (indexCount instanceCount firstIndex : Nat)
      (vertexOffset : Int) (firstInstance : Nat)
  deriving Repr, DecidableEq

/-- Model of `CommandBuffer` from `queuefamily.rs`: the wrapped raw handle is not
modelled (buffers are identified positionally); the `writing` flag and the
owning pool's queue kind are. -/
structure CommandBuffer where
  writing : Bool
  kind : QueueKind
  deriving Repr, DecidableEq

/-- Model of `CommandBuffer::new`: allocates `count` primary buffers from the pool in
one API call and wraps each with `writing = false` and the pool's kind. -/
def CommandBuffer.newBatch (kind : QueueKind) (count : Nat) :
    List CommandBuffer × List VkCall :=
  (List.replicate count { writing := false, kind := kind },
   [.allocateCommandBuffers count])

/-- Model of `CommandBuffer::begin`: errors if already writing (the early return
leaves `self` untouched, so the returned state is the input state);
otherwise issues `begin_command_buffer` and flips `writing` on.  The
returned writer mutably borrows the buffer, so it is represented by the
updated buffer itself; the `Except` carries the API calls issued. -/
def CommandBuffer.begin (cb : CommandBuffer)
    (used_once simultaneous_use : Bool) :
    CommandBuffer × Except FennecError (List VkCall) :=
  if cb.writing then
    (cb, .error (FennecError.new "CommandBuffer is already being written to"))
  else
    ({ cb with writing := true },
     .ok [.beginCommandBuffer used_once simultaneous_use])

/-- Model of `CommandBuffer::verify_kind`. -/
def CommandBuffer.verify_kind (cb : CommandBuffer)
    (expected_kinds : List QueueKind) : Except FennecError Unit :=
  if cb.kind ∈ expected_kinds then
    .ok ()
  else
    .error (FennecError.new
      ("Wrong kind of command buffer (" ++ cb.kind.debugFmt
        ++ ") - Expected one of " ++ debugFmtKinds expected_kinds))

/-- Model of `impl Drop for CommandBufferWriter`: clears the `writing` flag and issues
the `end_command_buffer` API call.  The consuming `end(self)` method has an
empty body: it merely moves the writer, so dropping and `end()` coincide. -/
def CommandBufferWriter.drop (cb : CommandBuffer) :
    CommandBuffer × List VkCall :=
  ({ cb with writing := false }, [.endCommandBuffer])

/-- Model of `CommandBufferWriter::pipeline_barrier`: queue-kind check, then the
barrier command. -/
def CommandBufferWriter.pipeline_barrier (cb : CommandBuffer) :
    Except FennecError (List VkCall) := do
  cb.verify_kind [.transfer, .graphics, .compute]
  return [.cmdPipelineBarrier]

/-- Model of `CommandBufferWriter::clear_color_image`: queue-kind check, then the
clear command. -/
def CommandBufferWriter.clear_color_image (cb : CommandBuffer) :
    Except FennecError (List VkCall) := do
  cb.verify_kind [.graphics, .compute]
  return [.cmdClearColorImage]

/-- Model of `CommandBufferWriter::begin_render_pass`: queue-kind check, then the
begin-render-pass command (the returned `ActiveRenderPass` borrows the
writer and carries no further state of its own). -/
def CommandBufferWriter.begin_render_pass (cb : CommandBuffer) :
    Except FennecError (List VkCall) := do
  cb.verify_kind [.graphics]
  return [.cmdBeginRenderPass]

/-- Model of `CommandBufferWriter::copy_buffer_to_image`: queue-kind check, then
`destination.verify_region_is_inside` for every region (each check's result
is passed in, abstracting the image-geometry arithmetic of `image.rs`), then
the copy command. -/
def CommandBufferWriter.copy_buffer_to_image (cb : CommandBuffer)
    (regionChecks : List (Except FennecError Unit)) :
    Except FennecError (List VkCall) := do
  cb.verify_kind [.transfer, .graphics, .compute]
  regionChecks.forM (fun chk => chk)
  return [.cmdCopyBufferToImage]

/-- Model of `ActiveRenderPass::bind_graphics_pipeline`: issues the bind command and
returns the pipeline-bound scope. -/
def ActiveRenderPass.bind_graphics_pipeline : List VkCall :=
  [.cmdBindPipeline]

/-- Model of `ActiveGraphicsPipeline::draw`: rejects zero vertex or instance counts
before issuing the single `cmd_draw`. -/
def ActiveGraphicsPipeline.draw
    (first_vertex vertex_count first_instance instance_count : Nat) :
    Except FennecError (List VkCall) :=
  if vertex_count = 0 then
    .error (FennecError.new "Vertex count was 0")
  else if instance_count = 0 then
    .error (FennecError.new "Instance count was 0")
  else
    .ok [.cmdDraw vertex_count instance_count first_vertex first_instance]

/-- Model of `ActiveGraphicsPipeline::draw_indexed`: rejects zero index or instance
counts before issuing the single `cmd_draw_indexed`. -/
def ActiveGraphicsPipeline.draw_indexed
    (first_index index_count : Nat) (vertex_offset : Int)
    (first_instance instance_count : Nat) :
    Except FennecError (List VkCall) :=
  if index_count = 0 then
    .error (FennecError.new "Index count was 0")
  else if instance_count = 0 then
    .error (FennecError.new "Instance count was 0")
  else
    .ok [.cmdDrawIndexed index_count instance_count first_index
          vertex_offset first_instance]

/-! ## `queuefamily.rs` — `CommandPool` (handle-keyed batches) -/

/-- Model of `CommandPool` from `queuefamily.rs`: a `Cache` of command-buffer batches
plus the owning family's kind (the wrapped `vk::CommandPool` handle is not
modelled). -/
structure CommandPool where
  command_buffers : Cache (List CommandBuffer)
  kind : QueueKind

/-- Model of `CommandPool::create_command_buffers`: allocates `count` buffers as one
batch tagged with the pool's kind, inserts the batch into the cache, and
returns the fresh handle together with the updated pool. -/
def CommandPool.create_command_buffers (pool : CommandPool) (count : Nat) :
    (Handle × CommandPool) × List VkCall :=
  let (bufs, calls) := CommandBuffer.newBatch pool.kind count
  let (handle, cache') := pool.command_buffers.insert bufs
  ((handle, { pool with command_buffers := cache' }), calls)

/-- Model of `CommandPool::destroy_command_buffers`: removes the batch from the cache
and `.unwrap()`s the result — a stale or never-issued handle therefore
panics — then frees the underlying buffers in one API call. -/
def CommandPool.destroy_command_buffers (pool : CommandPool)
    (handle : Handle) : POutcome (CommandPool × List VkCall) :=
  let (removed, cache') := pool.command_buffers.remove handle
  match removed with
  | none => .panicked "called `Option::unwrap()` on a `None` value"
  | some bufs =>
      .ok ({ pool with command_buffers := cache' },
           [.freeCommandBuffers bufs.length])

/-- Model of `CommandPool::command_buffers` (the lookup accessor; renamed because the
field already uses the source name): a stale or unknown handle yields the
resource-not-found error. -/
def CommandPool.command_buffers_get (pool : CommandPool) (handle : Handle) :
    Except FennecError (List CommandBuffer) :=
  match pool.command_buffers.get handle with
  | some bufs => .ok bufs
  | none =>
      .error (FennecError.new
        ("No command buffers exist under handle " ++ handle.debugFmt))

/-! ## `src/vm/graphicsengine/vkobject.rs` -/

/-- The GPU object kinds for which `HandleType` is implemented. -/
inductive HandleKind where
  | fence
  | semaphore
  | queue
  | commandPool
  | commandBuffer
  | swapchain
  | image
  | deviceMemory
  | pipeline
  | pipelineLayout
  | renderPass
  | framebuffer
  | imageView
  | descriptorPool
  | buffer
  | shaderModule
  | descriptorSet
  | descriptorSetLayout
  deriving Repr, DecidableEq

/-- The underlying device call performed by each kind's
`HandleType::destroy` implementation; `Queue`, `CommandBuffer` and
`DescriptorSet` are no-ops (their lifetime is owned elsewhere). -/
def HandleKind.destroyApiCall : HandleKind → Option String
  | .fence => some "destroy_fence"
  | .semaphore => some "destroy_semaphore"
  | .queue => none
  | .commandPool => some "destroy_command_pool"
  | .commandBuffer => none
  | .swapchain => some "destroy_swapchain"
  | .image => some "destroy_image"
  | .deviceMemory => some "free_memory"
  | .pipeline => some "destroy_pipeline"
  | .pipelineLayout => some "destroy_pipeline_layout"
  | .renderPass => some "destroy_render_pass"
  | .framebuffer => some "destroy_framebuffer"
  | .imageView => some "destroy_image_view"
  | .descriptorPool => some "destroy_descriptor_pool"
  | .buffer => some "destroy_buffer"
  | .shaderModule => some "destroy_shader_module"
  | .descriptorSet => none
  | .descriptorSetLayout => some "destroy_descriptor_set_layout"

/-- An observable effect of `impl Drop for VKHandle`. -/
inductive DropEvent where
  | trace (msg : String)
  | destroyCall (kind : HandleKind)
  deriving Repr, DecidableEq

/-- Model of `VKHandle<T>` from `vkobject.rs` (`protected` is a Lean keyword, hence
`protected_flag`; the shared `Context` pointer and raw handle value carry no
information the claims need). -/
structure VKHandle where
  kind : HandleKind
  protected_flag : Bool
  name : String
  deriving Repr, DecidableEq

/-- Model of `VKHandle::new`: the name starts out as `"Unnamed"`. -/
def VKHandle.new (kind : HandleKind) (protected_flag : Bool) : VKHandle :=
  { kind := kind, protected_flag := protected_flag, name := "Unnamed" }

/-- Model of `impl Drop for VKHandle`: nothing at all if protected; otherwise print
the diagnostic trace and invoke the kind-specific `HandleType::destroy`
through the context (modelled as succeeding; on failure the source would
panic via `.expect`). -/
def VKHandle.dropEvents (h : VKHandle) : List DropEvent :=
  if h.protected_flag then
    []
  else
    [.trace ("Dropping " ++ h.name), .destroyCall h.kind]

/-- Model of `CString::new` fails exactly when the string contains an interior NUL
byte. -/
def nameHasInteriorNul (name : String) : Bool :=
  name.toList.contains (Char.ofNat 0)

/-- Model of `VKObject::set_name` (the trait's default implementation): first renames
locally on the `VKHandle`, then attempts the CString conversion and the
debug-marker annotation call (whose device-side outcome is the
`markerResult` parameter); any failure is returned as an error but the local
rename is never rolled back.  `set_children_names` is modelled as succeeding
(its failures are again debug-annotation failures of children). -/
def VKObject.set_name (obj : VKHandle) (name : String)
    (markerResult : Except FennecError Unit) :
    VKHandle × Except FennecError Unit :=
  let obj' := { obj with name := name }
  if nameHasInteriorNul name then
    (obj', .error (FennecError.new "Could not convert object name to a CString"))
  else
    match markerResult with
    | .error e => (obj', .error e)
    | .ok _ => (obj', .ok ())

/-! ## Synchronization and per-frame submission
(`sync.rs`, `queue.rs`/`queuefamily.rs` `Queue::submit`, `rendertest.rs`,
`spritelayerrenderer.rs`, `mod.rs`) -/

/-- A semaphore, identified by its underlying handle value. -/
structure Semaphore where
  id : Nat
  deriving Repr, DecidableEq

/-- The pipeline-stage flags appearing in the per-frame paths. -/
inductive PipelineStageFlags where
  | topOfPipe
  | colorAttachmentOutput
  | bottomOfPipe
  deriving Repr, DecidableEq

/-- The `vk::SubmitInfo` built by `Queue::submit`: wait semaphores (paired
with their wait stages), signal semaphores, and the submitted command
buffers (identified by their index within their batch). -/
structure SubmitInfo where
  wait_semaphores : List (Nat × PipelineStageFlags)
  signal_semaphores : List Nat
  command_buffers : List Nat
  fence : Option Nat
  deriving Repr, DecidableEq

/-- Model of `Queue::submit`: one batched submission from the given optional
argument lists (`None` becomes empty). -/
def Queue.submit (command_buffers : Option (List Nat))
    (wait_semaphores : Option (List (Nat × PipelineStageFlags)))
    (signal_semaphores : Option (List Nat)) (fence : Option Nat) :
    SubmitInfo :=
  { wait_semaphores := wait_semaphores.getD [],
    signal_semaphores := signal_semaphores.getD [],
    command_buffers := command_buffers.getD [],
    fence := fence }

/-- Model of `RenderTest` from `rendertest.rs` (the fields the submission path
reads). -/
structure RenderTest where
  finished_semaphore : Semaphore
  command_buffers_handle : Handle

/-- Model of `RenderTest::submit_draw`: looks the batch up in the graphics family's
long-term pool (`?` propagates the not-found error), indexes it with
`image_index` (a Rust slice index, which panics when out of bounds), submits
that one buffer waiting on `wait_for` at `TOP_OF_PIPE` and signalling the
stage's own `finished_semaphore`, and returns that semaphore. -/
def RenderTest.submit_draw (rt : RenderTest) (wait_for : Semaphore)
    (graphics_long_term : CommandPool) (image_index : Nat)
    (signaled_fence : Option Nat) : POutcome (SubmitInfo × Semaphore) :=
  match graphics_long_term.command_buffers_get rt.command_buffers_handle with
  | .error e => .err e
  | .ok bufs =>
      if image_index < bufs.length then
        .ok (Queue.submit (some [image_index])
              (some [(wait_for.id, .topOfPipe)])
              (some [rt.finished_semaphore.id]) signaled_fence,
             rt.finished_semaphore)
      else
        .panicked "index out of bounds"

/-- Model of `SpriteLayerRenderer` from `spritelayerrenderer.rs` (the fields its
`submit_draw` reads; `finished_semaphore` lives in its pipeline bundle). -/
structure SpriteLayerRenderer where
  finished_semaphore : Semaphore
  command_buffer_handle : Handle

/-- Model of `SpriteLayerRenderer::submit_draw` (the `LayerRenderer` impl): same
shape as `RenderTest::submit_draw` but waits at
`COLOR_ATTACHMENT_OUTPUT`. -/
def SpriteLayerRenderer.submit_draw (r : SpriteLayerRenderer)
    (wait_for : Semaphore) (graphics_long_term : CommandPool)
    (image_index : Nat) (signaled_fence : Option Nat) :
    POutcome (SubmitInfo × Semaphore) :=
  match graphics_long_term.command_buffers_get r.command_buffer_handle with
  | .error e => .err e
  | .ok bufs =>
      if image_index < bufs.length then
        .ok (Queue.submit (some [image_index])
              (some [(wait_for.id, .colorAttachmentOutput)])
              (some [r.finished_semaphore.id]) signaled_fence,
             r.finished_semaphore)
      else
        .panicked "index out of bounds"

/-- The string-keyed `CommandPool` of `queue.rs`, which the engine's draw
path (`mod.rs`) uses: batches are stored under `String` names. -/
structure QCommandPool where
  command_buffers : String → Option (List CommandBuffer)

/-- Model of `queue.rs` `CommandPool::command_buffers`: name lookup with the
resource-not-found error. -/
def QCommandPool.command_buffers_get (pool : QCommandPool) (name : String) :
    Except FennecError (List CommandBuffer) :=
  match pool.command_buffers name with
  | some bufs => .ok bufs
  | none =>
      .error (FennecError.new
        ("No command buffers exist under name \"" ++ name ++ "\""))

/-- The `RenderTest` defined inside `mod.rs` (the engine's current stage
renderer); its command buffers are stored under
`RenderTest::COMMAND_BUFFERS_NAME`. -/
structure ModRenderTest where
  finished_semaphore : Semaphore

/-- Model of `RenderTest::COMMAND_BUFFERS_NAME` from `mod.rs`. -/
def ModRenderTest.COMMAND_BUFFERS_NAME : String := "render_test"

/-- Model of `mod.rs` `RenderTest::submit`: identical submission shape, except the
wait stage is supplied by the caller as part of the `wait_for` pair. -/
def ModRenderTest.submit (rt : ModRenderTest)
    (wait_for : Nat × PipelineStageFlags) (graphics_long_term : QCommandPool)
    (image_index : Nat) (signaled_fence : Option Nat) :
    POutcome (SubmitInfo × Semaphore) :=
  match graphics_long_term.command_buffers_get
      ModRenderTest.COMMAND_BUFFERS_NAME with
  | .error e => .err e
  | .ok bufs =>
      if image_index < bufs.length then
        .ok (Queue.submit (some [image_index]) (some [wait_for])
              (some [rt.finished_semaphore.id]) signaled_fence,
             rt.finished_semaphore)
      else
        .panicked "index out of bounds"

/-- The per-frame trace of `GraphicsEngine::draw`: which semaphore was
handed to `acquire_next_image`, the queue submissions in order, and which
semaphore gated `Swapchain::present`. -/
structure FrameTrace where
  acquire_signal : Nat
  submissions : List SubmitInfo
  present_wait : Nat
  deriving Repr, DecidableEq

/-- Model of `GraphicsEngine` from `mod.rs` (the fields `draw` reads; the present
queue obtained from `queue_of_priority(1.0)` is modelled by the Boolean
`has_present_queue`, and the image index returned by the device from
`acquire_next_image` is a parameter of `draw`). -/
structure GraphicsEngine where
  image_available_semaphore : Semaphore
  render_test : ModRenderTest
  graphics_long_term : QCommandPool
  has_present_queue : Bool

/-- Model of `GraphicsEngine::draw`: acquire the next image (signalling
`image_available_semaphore`), submit the render-test stage waiting on that
semaphore at `TOP_OF_PIPE`, then present waiting on the semaphore the stage
returned. -/
def GraphicsEngine.draw (eng : GraphicsEngine) (image_index : Nat) :
    POutcome FrameTrace :=
  match eng.render_test.submit
      (eng.image_available_semaphore.id, .topOfPipe)
      eng.graphics_long_term image_index none with
  | .err e => .err e
  | .panicked msg => .panicked msg
  | .ok (submission, render_test_finished) =>
      if eng.has_present_queue then
        .ok { acquire_signal := eng.image_available_semaphore.id,
              submissions := [submission],
              present_wait := render_test_finished.id }
      else
        .err (FennecError.new "No present queues exist")

/-! ## `queuefamily.rs` — `reduce_family_priorities_to_unique`

The source function deduplicates a `Vec<(u32, Vec<f32>)>` with two nested
`while` loops over `usize` indices.  When the entry at `first_index` loses
to a later duplicate, the source does `first_index -= 1; break;` and the
outer loop then does `first_index += 1`: under release-build (wrapping)
`usize` arithmetic the two cancel for every value including `0`, so the scan
resumes at the same `first_index`; the recursion below encodes exactly that.
Priority vectors are abstracted as a type `Q` with a Boolean comparison `le`
standing for `Vec<f32>: PartialOrd::le`, since no claim inspects them. -/
def reduceAux {Q : Type u} (le : Q → Q → Bool)
    (priorities : List (Nat × Q)) (first second : Nat) : List (Nat × Q) :=
  if h1 : first < priorities.length then
    if h2 : second < priorities.length then
      if (priorities.get ⟨second, h2⟩).1 = (priorities.get ⟨first, h1⟩).1 then
        if le (priorities.get ⟨second, h2⟩).2 (priorities.get ⟨first, h1⟩).2 then
          -- remove(second_index); second_index -= 1; … ; second_index += 1
          reduceAux le (priorities.eraseIdx second) first second
        else
          -- remove(first_index); first_index -= 1; break; first_index += 1;
          -- inner loop restarts at first_index + 1
          reduceAux le (priorities.eraseIdx first) first (first + 1)
      else
        reduceAux le priorities first (second + 1)
    else
      -- inner loop done: first_index += 1, second_index = first_index + 1
      reduceAux le priorities (first + 1) (first + 2)
  else
    priorities
  termination_by
    (priorities.length, priorities.length - first, priorities.length - second)
  decreasing_by
    · apply Prod.Lex.left
      rw [List.length_eraseIdx_of_lt h2]
      exact Nat.sub_lt (Nat.lt_of_le_of_lt (Nat.zero_le _) h2) Nat.one_pos
    · apply Prod.Lex.left
      rw [List.length_eraseIdx_of_lt h1]
      exact Nat.sub_lt (Nat.lt_of_le_of_lt (Nat.zero_le _) h1) Nat.one_pos
    · apply Prod.Lex.right
      apply Prod.Lex.right
      omega
    · apply Prod.Lex.right
      apply Prod.Lex.left
      omega

/-- Model of `reduce_family_priorities_to_unique`: the loops start at
`first_index = 0`, `second_index = 1`. -/
def reduce_family_priorities_to_unique {Q : Type u} (le : Q → Q → Bool)
    (priorities : List (Nat × Q)) : List (Nat × Q) :=
  reduceAux le priorities 0 1

/-- The fields of `QueueFamily` read by `queue_priorities`: the family index
and the priority vector `queue_priorities()` computes from its queue count
(kept abstract; see `reduceAux`). -/
structure QueueFamilyP (Q : Type u) where
  index : Nat
  queue_priorities : Q

/-- Model of `QueueFamilyCollection` (the three families). -/
structure QueueFamilyCollection (Q : Type u) where
  present : QueueFamilyP Q
  graphics : QueueFamilyP Q
  transfer : QueueFamilyP Q

/-- Model of `QueueFamilyCollection::queue_priorities`: pair each family's index with
its priority vector, then reduce to unique family indices. -/
def QueueFamilyCollection.queue_priorities {Q : Type u}
    (le : Q → Q → Bool) (c : QueueFamilyCollection Q) : List (Nat × Q) :=
  reduce_family_priorities_to_unique le
    [(c.present.index, c.present.queue_priorities),
     (c.graphics.index, c.graphics.queue_priorities),
     (c.transfer.index, c.transfer.queue_priorities)]

/-- Every key holding a value in the cache has index at most `prev_index`.
This is the reachable-state invariant behind handle freshness. -/
def Cache.KeyBound {T : Type u} (c : Cache T) : Prop :=
  ∀ h : Handle, c.data h ≠ none → h.index ≤ c.prev_index

theorem Cache.keyBound_new {T : Type u} : (Cache.new (T := T)).KeyBound := by
  intro h hne
  simp [Cache.new] at hne

theorem Cache.keyBound_insert {T : Type u} {c : Cache T} (hb : c.KeyBound)
    (v : T) : (c.insert v).2.KeyBound := by
  intro h hne
  simp only [Cache.insert] at hne ⊢
  by_cases heq : h = ⟨c.prev_index + 1⟩
  · subst heq; simp
  · simp only [if_neg heq] at hne
    exact Nat.le_succ_of_le (hb h hne)

theorem Cache.keyBound_remove {T : Type u} {c : Cache T} (hb : c.KeyBound)
    (h : Handle) : (c.remove h).2.KeyBound := by
  intro k hne
  simp only [Cache.remove] at hne ⊢
  by_cases heq : k = h
  · simp [heq] at hne
  · simp only [if_neg heq] at hne
    exact hb k hne

theorem Cache.runOps_prev_mono {T : Type u} (ops : List (CacheOp T))
    (c : Cache T) : c.prev_index ≤ (c.runOps ops).1.prev_index := by
  induction ops generalizing c with
  | nil => simp [Cache.runOps]
  | cons op rest ih =>
    cases op with
    | insert v =>
      have := ih (c.insert v).2
      simp only [Cache.runOps]
      calc c.prev_index ≤ c.prev_index + 1 := Nat.le_succ _
        _ = (c.insert v).2.prev_index := rfl
        _ ≤ _ := this
    | remove h =>
      have := ih (c.remove h).2
      simpa [Cache.runOps, Cache.remove] using this

theorem Cache.runOps_keyBound {T : Type u} (ops : List (CacheOp T))
    {c : Cache T} (hb : c.KeyBound) : (c.runOps ops).1.KeyBound := by
  induction ops generalizing c with
  | nil => simpa [Cache.runOps] using hb
  | cons op rest ih =>
    cases op with
    | insert v => exact ih (Cache.keyBound_insert hb v)
    | remove h => exact ih (Cache.keyBound_remove hb h)

theorem Cache.runOps_issued_gt {T : Type u} (ops : List (CacheOp T))
    (c : Cache T) : ∀ h ∈ (c.runOps ops).2, c.prev_index < h.index := by
  induction ops generalizing c with
  | nil => simp [Cache.runOps]
  | cons op rest ih =>
    cases op with
    | insert v =>
      intro h hmem
      simp only [Cache.runOps, List.mem_cons] at hmem
      rcases hmem with heq | hmem
      · subst heq; exact Nat.lt_succ_self _
      · have := ih (c.insert v).2 h hmem
        exact Nat.lt_of_le_of_lt (Nat.le_succ _) this
    | remove hh =>
      intro h hmem
      simp only [Cache.runOps] at hmem
      have := ih (c.remove hh).2 h hmem
      simpa [Cache.remove] using this

theorem Cache.runOps_pairwise {T : Type u} (ops : List (CacheOp T))
    (c : Cache T) :
    List.Pairwise (fun a b => a.index < b.index) (c.runOps ops).2 := by
  induction ops generalizing c with
  | nil => simp [Cache.runOps]
  | cons op rest ih =>
    cases op with
    | insert v =>
      simp only [Cache.runOps]
      refine List.Pairwise.cons ?_ (ih (c.insert v).2)
      intro b hmem
      exact Cache.runOps_issued_gt rest (c.insert v).2 b hmem
    | remove h =>
      simpa [Cache.runOps] using ih (c.remove h).2

/-- If a handle maps to nothing and its index is already covered by the
counter, then no later operation can ever make it map to something, and no
later insert ever issues it. -/
theorem Cache.runOps_get_none {T : Type u} (ops : List (CacheOp T))
    {c : Cache T} {h : Handle} (hnone : c.get h = none)
    (hle : h.index ≤ c.prev_index) :
    (c.runOps ops).1.get h = none ∧ h ∉ (c.runOps ops).2 := by
  induction ops generalizing c with
  | nil => simpa [Cache.runOps] using hnone
  | cons op rest ih =>
    cases op with
    | insert v =>
      have hne : h ≠ (⟨c.prev_index + 1⟩ : Handle) := by
        intro heq
        rw [heq] at hle
        exact Nat.not_succ_le_self _ hle
      have hnone' : (c.insert v).2.get h = none := by
        simp only [Cache.insert, Cache.get] at hnone ⊢
        simpa [if_neg hne] using hnone
      have hle' : h.index ≤ (c.insert v).2.prev_index :=
        Nat.le_succ_of_le hle
      have ⟨h1, h2⟩ := ih hnone' hle'
      refine ⟨h1, ?_⟩
      simp only [Cache.runOps, List.mem_cons, not_or]
      exact ⟨hne, h2⟩
    | remove hh =>
      have hnone' : (c.remove hh).2.get h = none := by
        simp only [Cache.remove, Cache.get] at hnone ⊢
        by_cases heq : h = hh
        · simp [heq]
        · simpa [if_neg heq] using hnone
      have hle' : h.index ≤ (c.remove hh).2.prev_index := hle
      exact ih hnone' hle'

/-- A handle holding a value after a run was either already present or was
issued by one of the run's inserts. -/
theorem Cache.runOps_mem_issued {T : Type u} (ops : List (CacheOp T))
    {c : Cache T} {h : Handle} (hne : (c.runOps ops).1.data h ≠ none) :
    c.data h ≠ none ∨ h ∈ (c.runOps ops).2 := by
  induction ops generalizing c with
  | nil => simpa [Cache.runOps] using hne
  | cons op rest ih =>
    cases op with
    | insert v =>
      simp only [Cache.runOps] at hne ⊢
      rcases ih hne with hprev | hmem
      · simp only [Cache.insert] at hprev
        by_cases heq : h = ⟨c.prev_index + 1⟩
        · right; exact List.mem_cons.2 (Or.inl heq)
        · left; simpa [if_neg heq] using hprev
      · right; exact List.mem_cons.2 (Or.inr hmem)
    | remove hh =>
      simp only [Cache.runOps] at hne ⊢
      rcases ih hne with hprev | hmem
      · simp only [Cache.remove] at hprev
        by_cases heq : h = hh
        · simp [heq] at hprev
        · left; simpa [if_neg heq] using hprev
      · right; exact hmem

/-! ## Helper lemmas for `reduce_family_priorities_to_unique` -/

/-- Every entry of the reduced list is an entry of the input list (the loops
only ever `remove`). -/
theorem reduceAux_sublist {Q : Type u} (le : Q → Q → Bool) :
    ∀ (ps : List (Nat × Q)) (first second : Nat),
      (reduceAux le ps first second).Sublist ps := by
  intro ps first second
  induction ps, first, second using reduceAux.induct le with
  | case1 ps first second h1 h2 heq hle ih =>
      rw [reduceAux]
      simp only [dif_pos h1, dif_pos h2, if_pos heq, if_pos hle]
      exact ih.trans (List.eraseIdx_sublist ps second)
  | case2 ps first second h1 h2 heq hle ih =>
      rw [reduceAux]
      simp only [dif_pos h1, dif_pos h2, if_pos heq, if_neg hle]
      exact ih.trans (List.eraseIdx_sublist ps first)
  | case3 ps first second h1 h2 heq ih =>
      rw [reduceAux]
      simp only [dif_pos h1, dif_pos h2, if_neg heq]
      exact ih
  | case4 ps first second h1 h2 ih =>
      rw [reduceAux]
      simp only [dif_pos h1, dif_neg h2]
      exact ih
  | case5 ps first second h1 =>
      rw [reduceAux]
      simp only [dif_neg h1]
      exact List.Sublist.refl ps

/-- Loop invariant of the two nested `while` loops: entries before
`first` differ in family index from everything after them, and the inner
scan has verified `(first, second)` against `first`; on termination the
whole list is pairwise distinct in family index. -/
theorem reduceAux_pairwise {Q : Type u} (le : Q → Q → Bool) :
    ∀ (ps : List (Nat × Q)) (first second : Nat),
      first < second →
      (∀ (i j : Nat) (hi : i < ps.length) (hj : j < ps.length),
          i < j → i < first → ps[i].1 ≠ ps[j].1) →
      (∀ (j : Nat) (hj : j < ps.length) (hf : first < ps.length),
          first < j → j < second → ps[j].1 ≠ ps[first].1) →
      List.Pairwise (fun p q => p.1 ≠ q.1) (reduceAux le ps first second) := by
  intro ps first second
  induction ps, first, second using reduceAux.induct le with
  | case1 ps first second h1 h2 heq hle ih =>
      intro hfs ha hb
      rw [reduceAux]
      simp only [dif_pos h1, dif_pos h2, if_pos heq, if_pos hle]
      have hlen : (ps.eraseIdx second).length = ps.length - 1 :=
        List.length_eraseIdx_of_lt h2
      apply ih hfs
      · intro i j hi hj hij hifirst
        have hi' : i < second := by omega
        rw [List.getElem_eraseIdx_of_lt ps second i hi hi']
        by_cases hj' : j < second
        · rw [List.getElem_eraseIdx_of_lt ps second j hj hj']
          exact ha i j (by omega) (by omega) hij hifirst
        · rw [List.getElem_eraseIdx_of_ge ps second j hj (by omega)]
          exact ha i (j + 1) (by omega) (by omega) (by omega) hifirst
      · intro j hj hf hfj hjs
        rw [List.getElem_eraseIdx_of_lt ps second j hj (by omega),
            List.getElem_eraseIdx_of_lt ps second first hf (by omega)]
        exact hb j (by omega) (by omega) hfj hjs
  | case2 ps first second h1 h2 heq hle ih =>
      intro hfs ha hb
      rw [reduceAux]
      simp only [dif_pos h1, dif_pos h2, if_pos heq, if_neg hle]
      have hlen : (ps.eraseIdx first).length = ps.length - 1 :=
        List.length_eraseIdx_of_lt h1
      apply ih (Nat.lt_succ_self first)
      · intro i j hi hj hij hifirst
        rw [List.getElem_eraseIdx_of_lt ps first i hi hifirst]
        by_cases hj' : j < first
        · rw [List.getElem_eraseIdx_of_lt ps first j hj hj']
          exact ha i j (by omega) (by omega) hij hifirst
        · rw [List.getElem_eraseIdx_of_ge ps first j hj (by omega)]
          exact ha i (j + 1) (by omega) (by omega) (by omega) hifirst
      · intro j hj hf hfj hjs
        omega
  | case3 ps first second h1 h2 heq ih =>
      intro hfs ha hb
      rw [reduceAux]
      simp only [dif_pos h1, dif_pos h2, if_neg heq]
      apply ih (by omega) ha
      intro j hj hf hfj hjs
      by_cases hjsec : j < second
      · exact hb j hj hf hfj hjsec
      · have : j = second := by omega
        subst this
        simpa [List.get_eq_getElem] using heq
  | case4 ps first second h1 h2 ih =>
      intro hfs ha hb
      rw [reduceAux]
      simp only [dif_pos h1, dif_neg h2]
      apply ih (by omega)
      · intro i j hi hj hij hifirst
        by_cases hif : i < first
        · exact ha i j hi hj hij hif
        · have : i = first := by omega
          subst this
          exact (hb j hj h1 hij (by omega)).symm
      · intro j hj hf hfj hjs
        omega
  | case5 ps first second h1 =>
      intro hfs ha hb
      rw [reduceAux]
      simp only [dif_neg h1]
      rw [List.pairwise_iff_get]
      intro i j hij
      simp only [List.get_eq_getElem]
      exact ha i j i.isLt j.isLt hij (by omega)

/-! ## Claim theorems -/

/-- Claim **C2**: For every `Cache<T>` instance and every sequence of insert and
remove operations, each `Handle` returned by `insert` has an internal index
strictly greater than the index of every handle previously issued by that
cache instance, even when removals are interleaved between the inserts. -/
theorem cache_insert_handles_strictly_increase {T : Type} (ops : List (CacheOp T)) :
    List.Pairwise (fun a b => a.index < b.index)
      ((Cache.new (T := T)).runOps ops).2 :=
  Cache.runOps_pairwise ops Cache.new

/-- Claim **C3**: For every `Cache<T>` (reached by running any op sequence `ops`
from a fresh cache), `remove h` returns `some` of the stored value when `h`
is still present and `none` when `h` was already removed or never issued;
and after a successful `remove h`, `get h` stays `none` for any further op
sequence `ops2`, because no later insert ever issues a handle equal to
`h`. -/
theorem cache_remove_semantics_no_aliasing {T : Type}
    (ops ops2 : List (CacheOp T)) (h : Handle) (v : T) :
    (((Cache.new (T := T)).runOps ops).1.get h = some v →
        (((Cache.new (T := T)).runOps ops).1.remove h).1 = some v)
    ∧ (h ∉ ((Cache.new (T := T)).runOps ops).2 →
        (((Cache.new (T := T)).runOps ops).1.remove h).1 = none)
    ∧ (((Cache.new (T := T)).runOps ops).1.get h ≠ none →
        ((((((Cache.new (T := T)).runOps ops).1.remove h).2.runOps ops2)).1.get h = none
        ∧ h ∉ (((((Cache.new (T := T)).runOps ops).1.remove h).2.runOps ops2)).2)) := by
  refine ⟨fun hsome => hsome, fun hnotissued => ?_, fun hsome => ?_⟩
  · by_contra hne
    have hd : ((Cache.new (T := T)).runOps ops).1.data h ≠ none := hne
    rcases Cache.runOps_mem_issued ops hd with hnew | hmem
    · exact hnew rfl
    · exact hnotissued hmem
  · have hkb : ((Cache.new (T := T)).runOps ops).1.KeyBound :=
      Cache.runOps_keyBound ops Cache.keyBound_new
    have hle : h.index ≤ ((Cache.new (T := T)).runOps ops).1.prev_index :=
      hkb h hsome
    have hnone :
        ((((Cache.new (T := T)).runOps ops).1.remove h).2).get h = none := by
      simp [Cache.remove, Cache.get]
    exact Cache.runOps_get_none ops2 hnone hle

/-- Witness for **C3** at concrete inputs: insert the value `5` (issuing
handle 1), then check the three clauses — removing handle 1 yields `some 5`;
removing the never-issued handle 2 yields `none`; and after removing handle
1, a later insert does not bring handle 1 back. -/
theorem cache_remove_semantics_no_aliasing_witness :
    ((((Cache.new (T := Nat)).runOps [CacheOp.insert 5]).1.remove ⟨1⟩).1 = some 5)
    ∧ ((((Cache.new (T := Nat)).runOps [CacheOp.insert 5]).1.remove ⟨2⟩).1 = none)
    ∧ (((((((Cache.new (T := Nat)).runOps [CacheOp.insert 5]).1.remove ⟨1⟩).2.runOps
          [CacheOp.insert 6])).1.get ⟨1⟩ = none)) :=
  ⟨(cache_remove_semantics_no_aliasing [CacheOp.insert 5] [] ⟨1⟩ 5).1 (by rfl),
   (cache_remove_semantics_no_aliasing [CacheOp.insert 5] [] ⟨2⟩ 5).2.1 (by decide),
   ((cache_remove_semantics_no_aliasing [CacheOp.insert 5] [CacheOp.insert 6]
      ⟨1⟩ 5).2.2 (by intro hcontra; exact Option.noConfusion hcontra)).1⟩

/-- Claim **C1** (evaluation at the failing input): on a fresh pool,
`create_command_buffers 4` issues handle 1; the first
`destroy_command_buffers ⟨1⟩` succeeds, after which the
`command_buffers ⟨1⟩` lookup returns the resource-not-found error (the
second half of the claim), but a second `destroy_command_buffers ⟨1⟩` with
the now-stale handle — and likewise a never-issued handle on any pool —
**panics** through `Option::unwrap()` instead of returning the
resource-not-found error, contradicting the claim's first half. -/
theorem destroy_command_buffers_stale_handle_panics :
    (∃ result,
      ((({ command_buffers := Cache.new, kind := QueueKind.graphics } :
            CommandPool).create_command_buffers 4).1.2.destroy_command_buffers
          ⟨1⟩) = POutcome.ok result
      ∧ result.1.command_buffers_get ⟨1⟩ =
          .error (FennecError.new
            "No command buffers exist under handle Handle \x7b index: 1 \x7d")
      ∧ result.1.destroy_command_buffers ⟨1⟩ =
          POutcome.panicked "called `Option::unwrap()` on a `None` value")
    ∧ ({ command_buffers := Cache.new, kind := QueueKind.graphics } :
        CommandPool).destroy_command_buffers ⟨5⟩ =
        POutcome.panicked "called `Option::unwrap()` on a `None` value" := by
  refine ⟨⟨_, rfl, ?_, ?_⟩, rfl⟩
  · rfl
  · rfl

/-- Claim **C4**: `begin` on a buffer that is already recording returns the
illegal-state error and leaves the buffer unchanged; on an idle buffer it
transitions to recording and issues the API begin call; dropping the writer
(or consuming it via `end()`, which is the same code path) issues the API
end-recording call and returns the buffer to idle, after which a new
`begin` succeeds. -/
theorem command_buffer_begin_state_machine (cb : CommandBuffer)
    (u s : Bool) :
    (cb.writing = true →
      (cb.begin u s).1 = cb
      ∧ (cb.begin u s).2 =
          .error (FennecError.new "CommandBuffer is already being written to"))
    ∧ (cb.writing = false →
      (cb.begin u s).1.writing = true
      ∧ (cb.begin u s).2 = .ok [.beginCommandBuffer u s]
      ∧ (CommandBufferWriter.drop (cb.begin u s).1).1.writing = false
      ∧ (CommandBufferWriter.drop (cb.begin u s).1).2 = [.endCommandBuffer]
      ∧ ((CommandBufferWriter.drop (cb.begin u s).1).1.begin u s).2 =
          .ok [.beginCommandBuffer u s]) := by
  constructor
  · intro hw
    simp [CommandBuffer.begin, hw]
  · intro hw
    simp [CommandBuffer.begin, CommandBufferWriter.drop, hw]

/-- Witness for **C4**: a recording graphics buffer rejects `begin`; an
idle one accepts it, and after the writer is dropped `begin` succeeds
again. -/
theorem command_buffer_begin_state_machine_witness :
    (({ writing := true, kind := QueueKind.graphics } :
        CommandBuffer).begin false false).2 =
      .error (FennecError.new "CommandBuffer is already being written to")
    ∧ (({ writing := false, kind := QueueKind.graphics } :
        CommandBuffer).begin false false).2 = .ok [.beginCommandBuffer false false]
    ∧ ((CommandBufferWriter.drop
          (({ writing := false, kind := QueueKind.graphics } :
            CommandBuffer).begin false false).1).1.begin false false).2 =
        .ok [.beginCommandBuffer false false] :=
  ⟨(command_buffer_begin_state_machine
      { writing := true, kind := QueueKind.graphics } false false).1 rfl |>.2,
   (command_buffer_begin_state_machine
      { writing := false, kind := QueueKind.graphics } false false).2 rfl |>.2.1,
   (command_buffer_begin_state_machine
      { writing := false, kind := QueueKind.graphics } false false).2 rfl
      |>.2.2.2.2⟩

/-- Claim **C5**: every buffer allocated from a Transfer-kind pool is tagged
`Transfer`, and on such a buffer `begin_render_pass` and
`clear_color_image` fail the queue-kind check with the illegal-state
(wrong-kind) error — issuing no underlying command, since the error branch
of the embedding carries no API calls — while `pipeline_barrier` and
`copy_buffer_to_image` pass the queue-kind check. -/
theorem transfer_buffer_queue_kind_checks (cb : CommandBuffer)
    (hk : cb.kind = QueueKind.transfer) (n : Nat) :
    (∀ b ∈ (CommandBuffer.newBatch QueueKind.transfer n).1,
        b.kind = QueueKind.transfer)
    ∧ CommandBufferWriter.begin_render_pass cb =
        .error (FennecError.new
          "Wrong kind of command buffer (Transfer) - Expected one of [Graphics]")
    ∧ CommandBufferWriter.clear_color_image cb =
        .error (FennecError.new
          "Wrong kind of command buffer (Transfer) - Expected one of [Graphics, Compute]")
    ∧ CommandBufferWriter.pipeline_barrier cb = .ok [.cmdPipelineBarrier]
    ∧ cb.verify_kind [.transfer, .graphics, .compute] = .ok ()
    ∧ CommandBufferWriter.copy_buffer_to_image cb [] =
        .ok [.cmdCopyBufferToImage] := by
  obtain ⟨w, k⟩ := cb
  change k = QueueKind.transfer at hk
  subst hk
  refine ⟨?_, rfl, rfl, rfl, rfl, rfl⟩
  intro b hb
  simp only [CommandBuffer.newBatch, List.mem_replicate] at hb
  rw [hb.2]

/-- Witness for **C5** on a concrete transfer-kind buffer. -/
theorem transfer_buffer_queue_kind_checks_witness :
    CommandBufferWriter.begin_render_pass
        { writing := false, kind := QueueKind.transfer } =
      .error (FennecError.new
        "Wrong kind of command buffer (Transfer) - Expected one of [Graphics]")
    ∧ CommandBufferWriter.pipeline_barrier
        { writing := false, kind := QueueKind.transfer } =
      .ok [.cmdPipelineBarrier] :=
  ⟨(transfer_buffer_queue_kind_checks
      { writing := false, kind := QueueKind.transfer } rfl 1).2.1,
   (transfer_buffer_queue_kind_checks
      { writing := false, kind := QueueKind.transfer } rfl 1).2.2.2.1⟩

/-- Claim **C6**: `draw` with `vertex_count = 0` or `instance_count = 0`, and
`draw_indexed` with `index_count = 0` or `instance_count = 0`, return the
argument-out-of-range error (the zero-vertex/zero-index check fires first)
without issuing any underlying draw command (the error branch carries no
API calls); and `draw` with `vertex_count = 3`, `instance_count = 1` issues
exactly one underlying `cmd_draw`. -/
theorem draw_zero_count_validation (fv fi vc ic fix : Nat) (vo : Int) :
    (vc = 0 →
      ActiveGraphicsPipeline.draw fv vc fi ic =
        .error (FennecError.new "Vertex count was 0"))
    ∧ (vc ≠ 0 → ic = 0 →
      ActiveGraphicsPipeline.draw fv vc fi ic =
        .error (FennecError.new "Instance count was 0"))
    ∧ (vc = 0 ∨ ic = 0 →
      ∀ calls, ActiveGraphicsPipeline.draw fv vc fi ic ≠ .ok calls)
    ∧ (ActiveGraphicsPipeline.draw fv 3 fi 1 = .ok [.cmdDraw 3 1 fv fi])
    ∧ (fix = 0 →
      ActiveGraphicsPipeline.draw_indexed fix 0 vo fi ic =
        .error (FennecError.new "Index count was 0"))
    ∧ (∀ ixc, ixc = 0 →
      ActiveGraphicsPipeline.draw_indexed fv ixc vo fi ic =
        .error (FennecError.new "Index count was 0"))
    ∧ (∀ ixc, ixc ≠ 0 → ic = 0 →
      ActiveGraphicsPipeline.draw_indexed fv ixc vo fi ic =
        .error (FennecError.new "Instance count was 0"))
    ∧ (∀ ixc, ixc ≠ 0 → ic ≠ 0 →
      ActiveGraphicsPipeline.draw_indexed fv ixc vo fi ic =
        .ok [.cmdDrawIndexed ixc ic fv vo fi]) := by
  refine ⟨?_, ?_, ?_, ?_, ?_, ?_, ?_, ?_⟩
  · intro hvc; simp [ActiveGraphicsPipeline.draw, hvc]
  · intro hvc hic; simp [ActiveGraphicsPipeline.draw, hvc, hic]
  · rintro (hvc | hic) calls
    · simp [ActiveGraphicsPipeline.draw, hvc]
    · rcases Nat.eq_zero_or_pos vc with h0 | h0
      · simp [ActiveGraphicsPipeline.draw, h0]
      · simp [ActiveGraphicsPipeline.draw, hic, Nat.pos_iff_ne_zero.mp h0]
  · simp [ActiveGraphicsPipeline.draw]
  · intro hfix; simp [ActiveGraphicsPipeline.draw_indexed, hfix]
  · intro ixc hixc; simp [ActiveGraphicsPipeline.draw_indexed, hixc]
  · intro ixc hixc hic; simp [ActiveGraphicsPipeline.draw_indexed, hixc, hic]
  · intro ixc hixc hic; simp [ActiveGraphicsPipeline.draw_indexed, hixc, hic]

/-- Witness for **C6** at concrete counts. -/
theorem draw_zero_count_validation_witness :
    ActiveGraphicsPipeline.draw 0 0 0 1 =
      .error (FennecError.new "Vertex count was 0")
    ∧ ActiveGraphicsPipeline.draw 0 3 0 1 = .ok [.cmdDraw 3 1 0 0]
    ∧ ActiveGraphicsPipeline.draw_indexed 0 0 0 0 1 =
      .error (FennecError.new "Index count was 0")
    ∧ ActiveGraphicsPipeline.draw_indexed 0 6 0 0 0 =
      .error (FennecError.new "Instance count was 0") :=
  ⟨(draw_zero_count_validation 0 0 0 1 0 0).1 rfl,
   (draw_zero_count_validation 0 0 3 1 0 0).2.2.2.1,
   (draw_zero_count_validation 0 0 0 1 0 0).2.2.2.2.2.1 0 rfl,
   (draw_zero_count_validation 0 0 0 0 0 0).2.2.2.2.2.2.1 6 (by decide) rfl⟩

/-- Claim **C7**: dropping a `VKHandle` whose `protected` flag is true performs
nothing at all (in particular no destroy call); dropping an unprotected one
emits the diagnostic trace and invokes the kind-specific
`HandleType::destroy` exactly once through the `Context`. -/
theorem vkhandle_drop_protected_semantics (h : VKHandle) :
    (h.protected_flag = true → h.dropEvents = [])
    ∧ (h.protected_flag = false →
        h.dropEvents =
          [.trace ("Dropping " ++ h.name), .destroyCall h.kind]
        ∧ h.dropEvents.countP (fun e =>
            match e with | .destroyCall _ => true | _ => false) = 1
        ∧ h.dropEvents.countP (fun e =>
            match e with | .trace _ => true | _ => false) = 1) := by
  constructor
  · intro hp
    simp [VKHandle.dropEvents, hp]
  · intro hp
    refine ⟨by simp [VKHandle.dropEvents, hp], ?_, ?_⟩ <;>
      simp [VKHandle.dropEvents, hp, List.countP_cons, List.countP_nil]

/-- Witness for **C7**: a protected swapchain image drops silently; an
unprotected image traces and destroys once. -/
theorem vkhandle_drop_protected_semantics_witness :
    (VKHandle.mk HandleKind.image true "Swapchain.0").dropEvents = []
    ∧ (VKHandle.mk HandleKind.image false "RenderTest::texture_image").dropEvents =
        [.trace "Dropping RenderTest::texture_image",
         .destroyCall HandleKind.image] :=
  ⟨(vkhandle_drop_protected_semantics
      (VKHandle.mk HandleKind.image true "Swapchain.0")).1 rfl,
   ((vkhandle_drop_protected_semantics
      (VKHandle.mk HandleKind.image false "RenderTest::texture_image")).2 rfl).1⟩

/-- Claim **C9**: `set_name` always updates the local debug name first; when the
GPU debug-annotation call fails, the error is returned but the local name
remains the newly assigned one (no rollback). -/
theorem set_name_local_rename_not_rolled_back (obj : VKHandle)
    (name : String) (mr : Except FennecError Unit) (e : FennecError) :
    ((VKObject.set_name obj name mr).1.name = name)
    ∧ (nameHasInteriorNul name = false → mr = .error e →
        (VKObject.set_name obj name mr).2 = .error e
        ∧ (VKObject.set_name obj name mr).1.name = name) := by
  refine ⟨?_, fun hnul hmr => ⟨?_, ?_⟩⟩
  · by_cases hnul : nameHasInteriorNul name <;> cases mr <;>
      simp [VKObject.set_name, hnul]
  · subst hmr
    simp [VKObject.set_name, hnul]
  · subst hmr
    simp [VKObject.set_name, hnul]

/-- Witness for **C9**: renaming with a failing debug-marker call still
leaves the new local name in place and surfaces the error. -/
theorem set_name_local_rename_not_rolled_back_witness :
    nameHasInteriorNul "RenderTest::texture_image" = false
    ∧ (VKObject.set_name (VKHandle.new HandleKind.image false)
        "RenderTest::texture_image"
        (.error (FennecError.new "Vulkan error occurred"))).2 =
      .error (FennecError.new "Vulkan error occurred")
    ∧ (VKObject.set_name (VKHandle.new HandleKind.image false)
        "RenderTest::texture_image"
        (.error (FennecError.new "Vulkan error occurred"))).1.name =
      "RenderTest::texture_image" := by
  refine ⟨by decide, ?_, ?_⟩
  · exact ((set_name_local_rename_not_rolled_back
      (VKHandle.new HandleKind.image false) "RenderTest::texture_image"
      (.error (FennecError.new "Vulkan error occurred"))
      (FennecError.new "Vulkan error occurred")).2 (by decide) rfl).1
  · exact (set_name_local_rename_not_rolled_back
      (VKHandle.new HandleKind.image false) "RenderTest::texture_image"
      (.error (FennecError.new "Vulkan error occurred"))
      (FennecError.new "Vulkan error occurred")).1

/-! ## Helper lemmas for the per-frame semaphore chain -/

/-- Shape of a successful `RenderTest::submit_draw`: the submission waits
exactly on the given semaphore at `TOP_OF_PIPE`, signals exactly the stage's
`finished_semaphore`, and that semaphore is the returned one. -/
theorem renderTest_submit_draw_ok_shape (rt : RenderTest) (w : Semaphore)
    (pool : CommandPool) (i : Nat) (f : Option Nat) (si : SubmitInfo)
    (s : Semaphore) (hok : rt.submit_draw w pool i f = .ok (si, s)) :
    si.wait_semaphores = [(w.id, .topOfPipe)]
    ∧ si.signal_semaphores = [rt.finished_semaphore.id]
    ∧ s = rt.finished_semaphore := by
  unfold RenderTest.submit_draw at hok
  split at hok
  · exact POutcome.noConfusion hok
  · split at hok
    · simp only [POutcome.ok.injEq, Prod.mk.injEq] at hok
      obtain ⟨hsi, hs⟩ := hok
      subst hsi
      subst hs
      exact ⟨rfl, rfl, rfl⟩
    · exact POutcome.noConfusion hok

/-- Shape of a successful `SpriteLayerRenderer::submit_draw`: waits exactly
on the given semaphore at `COLOR_ATTACHMENT_OUTPUT`, signals exactly its
own `finished_semaphore`, and returns it. -/
theorem spriteLayer_submit_draw_ok_shape (r : SpriteLayerRenderer)
    (w : Semaphore) (pool : CommandPool) (i : Nat) (f : Option Nat)
    (si : SubmitInfo) (s : Semaphore)
    (hok : r.submit_draw w pool i f = .ok (si, s)) :
    si.wait_semaphores = [(w.id, .colorAttachmentOutput)]
    ∧ si.signal_semaphores = [r.finished_semaphore.id]
    ∧ s = r.finished_semaphore := by
  unfold SpriteLayerRenderer.submit_draw at hok
  split at hok
  · exact POutcome.noConfusion hok
  · split at hok
    · simp only [POutcome.ok.injEq, Prod.mk.injEq] at hok
      obtain ⟨hsi, hs⟩ := hok
      subst hsi
      subst hs
      exact ⟨rfl, rfl, rfl⟩
    · exact POutcome.noConfusion hok

/-- Shape of a successful `mod.rs` `RenderTest::submit`. -/
theorem modRenderTest_submit_ok_shape (rt : ModRenderTest)
    (wf : Nat × PipelineStageFlags) (pool : QCommandPool) (i : Nat)
    (f : Option Nat) (si : SubmitInfo) (s : Semaphore)
    (hok : rt.submit wf pool i f = .ok (si, s)) :
    si.wait_semaphores = [wf]
    ∧ si.signal_semaphores = [rt.finished_semaphore.id]
    ∧ s = rt.finished_semaphore := by
  unfold ModRenderTest.submit at hok
  split at hok
  · exact POutcome.noConfusion hok
  · split at hok
    · simp only [POutcome.ok.injEq, Prod.mk.injEq] at hok
      obtain ⟨hsi, hs⟩ := hok
      subst hsi
      subst hs
      exact ⟨rfl, rfl, rfl⟩
    · exact POutcome.noConfusion hok

/-- Claim **C8**: each stage renderer's `submit_draw` waits on exactly the one
input semaphore it is given (at its stage), signals exactly its own
finished semaphore, and returns that semaphore; and in
`GraphicsEngine::draw` the swapchain's image-available semaphore is the
wait semaphore of the (single) stage submission while the semaphore the
stage returned is the one passed to `Swapchain::present`. -/
theorem stage_semaphore_chain (rt : RenderTest) (slr : SpriteLayerRenderer)
    (pool : CommandPool) (w : Semaphore) (i : Nat) (f : Option Nat)
    (eng : GraphicsEngine) (j : Nat) (si si2 : SubmitInfo)
    (s s2 : Semaphore) (tr : FrameTrace) :
    (rt.submit_draw w pool i f = .ok (si, s) →
        si.wait_semaphores = [(w.id, .topOfPipe)]
        ∧ si.signal_semaphores = [rt.finished_semaphore.id]
        ∧ s = rt.finished_semaphore)
    ∧ (slr.submit_draw w pool i f = .ok (si2, s2) →
        si2.wait_semaphores = [(w.id, .colorAttachmentOutput)]
        ∧ si2.signal_semaphores = [slr.finished_semaphore.id]
        ∧ s2 = slr.finished_semaphore)
    ∧ (eng.draw j = .ok tr →
        tr.acquire_signal = eng.image_available_semaphore.id
        ∧ tr.submissions.length = 1
        ∧ (∀ sub ∈ tr.submissions,
            sub.wait_semaphores =
              [(eng.image_available_semaphore.id, .topOfPipe)]
            ∧ sub.signal_semaphores = [eng.render_test.finished_semaphore.id])
        ∧ tr.present_wait = eng.render_test.finished_semaphore.id) := by
  refine ⟨renderTest_submit_draw_ok_shape rt w pool i f si s,
          spriteLayer_submit_draw_ok_shape slr w pool i f si2 s2,
          ?_⟩
  intro hok
  unfold GraphicsEngine.draw at hok
  split at hok
  · exact POutcome.noConfusion hok
  · exact POutcome.noConfusion hok
  · next submission fin heq =>
      obtain ⟨hw, hsig, hfin⟩ := modRenderTest_submit_ok_shape _ _ _ _ _ _ _ heq
      split at hok
      · simp only [POutcome.ok.injEq] at hok
        subst hok
        refine ⟨rfl, rfl, ?_, by rw [hfin]⟩
        intro sub hsub
        simp only [List.mem_singleton] at hsub
        subst hsub
        exact ⟨hw, hsig⟩
      · exact POutcome.noConfusion hok

/-- Witness for **C8** on a concrete one-buffer pool and engine. -/
theorem stage_semaphore_chain_witness :
    ((⟨⟨20⟩, ⟨1⟩⟩ : RenderTest).submit_draw ⟨10⟩
        ((CommandPool.create_command_buffers ⟨Cache.new, .graphics⟩ 1).1.2) 0 none =
      .ok (⟨[(10, .topOfPipe)], [20], [0], none⟩, ⟨20⟩))
    ∧ (⟨[(10, .topOfPipe)], [20], [0], none⟩ : SubmitInfo).wait_semaphores =
        [(10, .topOfPipe)]
    ∧ ((⟨⟨10⟩, ⟨⟨20⟩⟩,
          ⟨fun n => if n = "render_test" then some [⟨false, .graphics⟩] else none⟩,
          true⟩ : GraphicsEngine).draw 0 =
        .ok ⟨10, [⟨[(10, .topOfPipe)], [20], [0], none⟩], 20⟩)
    ∧ (⟨10, [⟨[(10, .topOfPipe)], [20], [0], none⟩], 20⟩ : FrameTrace).present_wait =
        (⟨⟨10⟩, ⟨⟨20⟩⟩,
          ⟨fun n => if n = "render_test" then some [⟨false, .graphics⟩] else none⟩,
          true⟩ : GraphicsEngine).render_test.finished_semaphore.id := by
  refine ⟨by decide, ?_, by decide, ?_⟩
  · exact ((stage_semaphore_chain ⟨⟨20⟩, ⟨1⟩⟩ ⟨⟨20⟩, ⟨1⟩⟩
      ((CommandPool.create_command_buffers ⟨Cache.new, .graphics⟩ 1).1.2) ⟨10⟩ 0 none
      ⟨⟨10⟩, ⟨⟨20⟩⟩,
        ⟨fun n => if n = "render_test" then some [⟨false, .graphics⟩] else none⟩,
        true⟩ 0 ⟨[(10, .topOfPipe)], [20], [0], none⟩
      ⟨[(10, .topOfPipe)], [20], [0], none⟩ ⟨20⟩ ⟨20⟩
      ⟨10, [⟨[(10, .topOfPipe)], [20], [0], none⟩], 20⟩).1 (by decide)).1
  · exact ((stage_semaphore_chain ⟨⟨20⟩, ⟨1⟩⟩ ⟨⟨20⟩, ⟨1⟩⟩
      ((CommandPool.create_command_buffers ⟨Cache.new, .graphics⟩ 1).1.2) ⟨10⟩ 0 none
      ⟨⟨10⟩, ⟨⟨20⟩⟩,
        ⟨fun n => if n = "render_test" then some [⟨false, .graphics⟩] else none⟩,
        true⟩ 0 ⟨[(10, .topOfPipe)], [20], [0], none⟩
      ⟨[(10, .topOfPipe)], [20], [0], none⟩ ⟨20⟩ ⟨20⟩
      ⟨10, [⟨[(10, .topOfPipe)], [20], [0], none⟩], 20⟩).2.2 (by decide)).2.2.2

/-- Claim **C10**: `reduce_family_priorities_to_unique` terminates on every input
(it is defined here by well-founded recursion on its loop measure, mirroring
the source loops), leaves a list in which no two entries share a family
index, and every remaining entry was present in the input (the result is a
sublist); consequently `QueueFamilyCollection::queue_priorities` returns at
most one priority vector per distinct queue family index. -/
theorem reduce_family_priorities_unique {Q : Type} (le : Q → Q → Bool)
    (priorities : List (Nat × Q)) (c : QueueFamilyCollection Q) :
    (reduce_family_priorities_to_unique le priorities).Sublist priorities
    ∧ List.Pairwise (fun p q => p.1 ≠ q.1)
        (reduce_family_priorities_to_unique le priorities)
    ∧ List.Pairwise (fun p q => p.1 ≠ q.1) (c.queue_priorities le) := by
  refine ⟨reduceAux_sublist le priorities 0 1, ?_, ?_⟩
  · exact reduceAux_pairwise le priorities 0 1 Nat.one_pos
      (fun i j hi hj hij h0 => by omega)
      (fun j hj hf hfj hjs => by omega)
  · exact reduceAux_pairwise le _ 0 1 Nat.one_pos
      (fun i j hi hj hij h0 => by omega)
      (fun j hj hf hfj hjs => by omega)

end Fennec
